import Mathlib

/-!
Shallow embedding of `wagtail_review/models.py` (wagtail-review).

Conventions of the embedding:
* Django model instances become Lean structures; nullable foreign keys become
  `Option`; `CharField`/`EmailField` values are `String` (Django's default for
  an unsaved blank char field is the empty string).
* Timestamps are abstract ticks (`Nat`); `DateTime.isoformat` is the identity
  on the stored ISO string for serialization claims.
* Randomness (`random.SystemRandom().choice`) is modelled by an explicit
  stream of uniform indices `pick : Fin 16 → Fin 36` into the alphabet; the
  alphabet indexing map is proved injective, so a uniform index stream yields
  uniform characters.
* Django querysets become Lean lists; `filter`/`exclude` become `List.filter`
  (with Django's documented Python-style `NULL` handling on `exclude`:
  rows whose nullable column is `NULL` are kept by `exclude(col=v)`);
  `order_by` becomes `List.insertionSort`.
* Sending mail becomes returning the messages (or recipients) that would be
  sent; code paths that would raise `AttributeError` return `Option`.
-/

namespace WagtailReview

/-- A host-CMS user account: primary key plus the email field the models read. -/
structure User where
  id : Nat
  email : String
  deriving Repr, DecidableEq

/-- Embeds `BaseReview`/`Review` row: immutable page-revision reference, status
(`'open'` by default, as in `models.CharField(..., default='open')`),
submitter and creation timestamp. -/
structure Review where
  id : Nat
  page_revision : Nat
  status : String := "open"
  submitter : User
  created_at : Nat
  deriving Repr, DecidableEq

/-- Embeds `Reviewer` row: the owning review, an optional user account, a (possibly
blank) email, and the two capability tokens, blank before first save. -/
structure Reviewer where
  id : Nat
  review : Nat
  user : Option User
  email : String
  response_token : String := ""
  view_token : String := ""
  deriving Repr, DecidableEq

/-- Embeds `Reviewer.clean`: raise `ValidationError` when both identity fields are
unset (`self.user is None and not self.email`). -/
def Reviewer.clean (r : Reviewer) : Except String Unit :=
  if r.user.isNone && r.email == "" then
    Except.error "A reviewer must have either an email address or a user account"
  else
    Except.ok ()

/-- Embeds `Reviewer.get_email_address`: `self.email or self.user.email`.  When the
email field is blank and there is no user, Python would raise
`AttributeError`; that path is `none`. -/
def Reviewer.get_email_address (r : Reviewer) : Option String :=
  if r.email == "" then r.user.map User.email else some r.email

/-- Embeds `Reviewer.get_name`: `user_display_name(self.user) if self.user else
self.email`.  `user_display_name` lives in `wagtail_review/text.py`, outside
the embedded file, so it is an abstract parameter `udn`. -/
def Reviewer.get_name (udn : User → String) (r : Reviewer) : String :=
  match r.user with
  | some u => udn u
  | none => r.email

/-- Embeds `Reviewer.save`: mint each token at first save (`if not self.<token>`),
leaving a non-blank stored token untouched.  The freshly generated values of
`generate_token` are passed in explicitly. -/
def Reviewer.save (r : Reviewer) (freshResponse freshView : String) : Reviewer :=
  let r1 := if r.response_token == "" then { r with response_token := freshResponse } else r
  if r1.view_token == "" then { r1 with view_token := freshView } else r1

/-- The alphabet of `generate_token`: `string.ascii_lowercase + string.digits`. -/
def token_alphabet : List Char :=
  "abcdefghijklmnopqrstuvwxyz0123456789".toList

/-- One character choice of `generate_token`:
`random.SystemRandom().choice(alphabet)` with the uniform random index made
explicit. -/
def token_char (j : Fin 36) : Char :=
  token_alphabet.get (Fin.cast (by decide) j)

/-- Embeds `generate_token`: 16 independent uniform choices from the alphabet,
joined into a string. -/
def generate_token (pick : Fin 16 → Fin 36) : String :=
  String.mk ((List.finRange 16).map fun i => token_char (pick i))

/-- Embeds `review.reviewers`: the reviewer rows whose `review` foreign key is this
review. -/
def reviewers_of (rev : Review) (allReviewers : List Reviewer) : List Reviewer :=
  allReviewers.filter fun r => r.review == rev.id

/-- Whether a reviewer row matches `exclude(user=self.submitter)`, i.e. its
user account is exactly the review's submitter. -/
def reviewer_user_is (rev : Review) (r : Reviewer) : Bool :=
  r.user.any fun u => u.id == rev.submitter.id

/-- Embeds `BaseReview.send_request_emails`: iterate
`self.reviewers.exclude(user=self.submitter)` and send each a request email;
the value is the list of reviewers emailed.  Django's `exclude` on a nullable
column keeps `NULL` rows, so reviewers with no user account are included. -/
def send_request_emails (rev : Review) (allReviewers : List Reviewer) : List Reviewer :=
  (reviewers_of rev allReviewers).filter fun r => !(reviewer_user_is rev r)

/-- Embeds `Response` row. -/
structure Response where
  id : Nat
  reviewer : Nat
  result : String
  comment : String
  created_at : Nat
  deriving Repr, DecidableEq

/-- Embeds `Response.send_notification_to_submitter`: look up
`self.reviewer.review.submitter` (passed here as the owning review) and send
one email to `submitter.email` when that string is truthy; otherwise do
nothing.  The value is the recipient address, if any. -/
def send_notification_to_submitter (rev : Review) : Option String :=
  if rev.submitter.email == "" then none else some rev.submitter.email

/-- Ascending order on response creation timestamps (`order_by('created_at')`). -/
def created_le (a b : Response) : Prop :=
  a.created_at ≤ b.created_at

instance : DecidableRel created_le :=
  fun a b => inferInstanceAs (Decidable (a.created_at ≤ b.created_at))

instance : IsTotal Response created_le :=
  ⟨fun a b => Nat.le_total a.created_at b.created_at⟩

instance : IsTrans Response created_le :=
  ⟨fun _ _ _ h h2 => Nat.le_trans h h2⟩

/-- Embeds `BaseReview.get_responses`:
`Response.objects.filter(reviewer__review=self).order_by('created_at')`. -/
def get_responses (rev : Review) (allReviewers : List Reviewer)
    (allResponses : List Response) : List Response :=
  List.insertionSort created_le
    (allResponses.filter fun p =>
      allReviewers.any fun w => w.id == p.reviewer && w.review == rev.id)

/-- The page a review targets, through `page_revision__object_id`: `object_id`
is the host CMS's map from a revision's pk to the pk of the page it
snapshots. -/
def review_page (object_id : Nat → Nat) (rv : Review) : Nat :=
  object_id rv.page_revision

/-- Embeds `reviewed_page_ids`:
`cls.objects.values_list("page_revision__object_id", flat=True).distinct()`. -/
def reviewed_page_ids (object_id : Nat → Nat) (reviews : List Review) : List Nat :=
  (reviews.map (review_page object_id)).dedup

/-- Embeds `latest_reviews_map`: group the reviews by target page and take
`Max("created_at")` per group; pages with no review have no entry (`none`). -/
def latest_reviews_map (object_id : Nat → Nat) (reviews : List Review) (pk : Nat) :
    Option Nat :=
  ((reviews.filter fun rv => review_page object_id rv == pk).map Review.created_at).max?

/-- Descending order on the `last_review_requested_at` annotation
(`order_by("-last_review_requested_at")`), on (page pk, timestamp) pairs. -/
def latest_desc (a b : Nat × Nat) : Prop :=
  b.2 ≤ a.2

instance : DecidableRel latest_desc :=
  fun a b => inferInstanceAs (Decidable (b.2 ≤ a.2))

instance : IsTotal (Nat × Nat) latest_desc :=
  ⟨fun a b => Nat.le_total b.2 a.2⟩

instance : IsTrans (Nat × Nat) latest_desc :=
  ⟨fun _ _ _ h h2 => Nat.le_trans h2 h⟩

/-- Embeds `BaseReview.get_pages_with_reviews_for_user`: restrict the host's
permission-filtered editable pages to the reviewed ones, annotate each with
its latest review creation time (the `Case`/`When` built from
`latest_reviews_map` — every surviving page has an entry, so the
`filterMap` keeps them all), and sort descending on that annotation. -/
def get_pages_with_reviews_for_user (object_id : Nat → Nat)
    (editable_pages : List Nat) (reviews : List Review) : List (Nat × Nat) :=
  let reviewed := reviewed_page_ids object_id reviews
  let pages := editable_pages.filter fun pk => reviewed.contains pk
  let annotated := pages.filterMap fun pk =>
    (latest_reviews_map object_id reviews pk).map fun t => (pk, t)
  List.insertionSort latest_desc annotated

/-- JSON values, for the serialization claims. -/
inductive Json where
  | null
  | str (s : String)
  | num (n : Int)
  | obj (fields : List (String × Json))
  | arr (elems : List Json)

/-- The key list of a JSON object (empty for non-objects). -/
def Json.keys : Json → List String
  | .obj fields => fields.map Prod.fst
  | _ => []

/-- Look a key up in a JSON object. -/
def Json.lookup (k : String) : Json → Option Json
  | .obj fields => (fields.find? fun kv => kv.1 == k).map Prod.snd
  | _ => none

/-- An aware timestamp, abstracted to its ISO-8601 rendering. -/
structure DateTime where
  iso : String
  deriving Repr, DecidableEq

/-- Embeds `datetime.isoformat()`. -/
def DateTime.isoformat (d : DateTime) : String :=
  d.iso

/-- Embeds `AnnotationRange` row: a DOM-range anchor. -/
structure AnnotationRange where
  start : String
  start_offset : Int
  «end» : String
  end_offset : Int
  deriving Repr, DecidableEq

/-- Embeds `AnnotationRange.as_json_data`. -/
def AnnotationRange.as_json_data (rng : AnnotationRange) : Json :=
  Json.obj [
    ("start", Json.str rng.start),
    ("startOffset", Json.num rng.start_offset),
    ("end", Json.str rng.«end»),
    ("endOffset", Json.num rng.end_offset)]

/-- Embeds `Annotation` row, with its reviewer and its related ranges inline. -/
structure Annotation where
  id : Nat
  reviewer : Reviewer
  quote : String
  text : String
  created_at : DateTime
  updated_at : DateTime
  ranges : List AnnotationRange
  deriving Repr, DecidableEq

/-- Embeds `Annotation.as_json_data` (with `user_display_name` abstract, as in
`Reviewer.get_name`). -/
def Annotation.as_json_data (udn : User → String) (a : Annotation) : Json :=
  Json.obj [
    ("id", Json.num a.id),
    ("annotator_schema_version", Json.str "v1.0"),
    ("created", Json.str a.created_at.isoformat),
    ("updated", Json.str a.updated_at.isoformat),
    ("text", Json.str a.text),
    ("quote", Json.str a.quote),
    ("user", Json.obj [
      ("id", Json.num a.reviewer.id),
      ("name", Json.str (a.reviewer.get_name udn))]),
    ("ranges", Json.arr (a.ranges.map AnnotationRange.as_json_data))]

/-- The tables `models.py` writes to, keyed by primary key. -/
structure World where
  reviews : Nat → Option Review
  reviewers : Nat → Option Reviewer

/-- The state-changing operations defined in `models.py`: creating a `Review`
row (an INSERT taking the field defaults, in particular `status='open'`), and
`Reviewer.save` — the only `save` override in the file; no code in the file
writes the `status` column. -/
inductive Op where
  | create_review (i page_revision : Nat) (submitter : User) (now : Nat)
  | save_reviewer (i : Nat) (freshResponse freshView : String)

/-- One database write.  `create_review` only fills an unused pk (the
database allocates fresh primary keys); `save_reviewer` applies
`Reviewer.save` to the stored row. -/
def step (w : World) (op : Op) : World :=
  match op with
  | .create_review i pr sub now =>
    if (w.reviews i).isNone then
      { w with reviews := fun j =>
          if j == i then
            some { id := i, page_revision := pr, submitter := sub, created_at := now }
          else w.reviews j }
    else w
  | .save_reviewer i t1 t2 =>
    { w with reviewers := fun j =>
        if j == i then (w.reviewers j).map fun r => r.save t1 t2
        else w.reviewers j }

end WagtailReview

namespace WagtailReview

/-- C2: `Reviewer.clean` raises exactly when both identity fields are unset,
and succeeds whenever at least one of user or email is set. -/
theorem clean_error_iff (r : Reviewer) :
    (r.clean = Except.error "A reviewer must have either an email address or a user account"
      ↔ (r.user = none ∧ r.email = "")) ∧
    ((r.user ≠ none ∨ r.email ≠ "") → r.clean = Except.ok ()) := by
  refine ⟨⟨fun h => ?_, fun h => ?_⟩, fun h => ?_⟩
  · by_cases hu : r.user = none
    · by_cases he : r.email = ""
      · exact ⟨hu, he⟩
      · simp [Reviewer.clean, hu, he] at h
    · simp [Reviewer.clean, Option.isNone_iff_eq_none, hu] at h
  · obtain ⟨hu, he⟩ := h
    simp [Reviewer.clean, hu, he]
  · rcases h with hu | he
    · simp [Reviewer.clean, Option.isNone_iff_eq_none, hu]
    · simp [Reviewer.clean, he]

/-- Witness for C2 at a concrete reviewer with neither user nor email. -/
theorem clean_error_iff_witness :
    Reviewer.clean ⟨1, 1, none, "", "", ""⟩
      = Except.error "A reviewer must have either an email address or a user account" :=
  (clean_error_iff ⟨1, 1, none, "", "", ""⟩).1.2 ⟨rfl, rfl⟩

/-- C1: `Reviewer.save` mints each token exactly once — a blank stored token
is set to the freshly generated value, and a non-blank stored token is left
unchanged by every subsequent save. -/
theorem tokens_minted_once (r : Reviewer) (t1 t2 : String) :
    (r.response_token ≠ "" → (r.save t1 t2).response_token = r.response_token) ∧
    (r.view_token ≠ "" → (r.save t1 t2).view_token = r.view_token) ∧
    (r.response_token = "" → (r.save t1 t2).response_token = t1) ∧
    (r.view_token = "" → (r.save t1 t2).view_token = t2) := by
  unfold Reviewer.save
  by_cases h1 : r.response_token = "" <;> by_cases h2 : r.view_token = "" <;>
    simp [h1, h2]

/-- Witness for C1: a reviewer with a stored response token and a blank view
token keeps the former and mints the latter. -/
theorem tokens_minted_once_witness :
    (Reviewer.save ⟨1, 1, none, "a@example.com", "tok1", ""⟩ "fresh1" "fresh2").response_token
        = "tok1" ∧
    (Reviewer.save ⟨1, 1, none, "a@example.com", "tok1", ""⟩ "fresh1" "fresh2").view_token
        = "fresh2" :=
  ⟨(tokens_minted_once ⟨1, 1, none, "a@example.com", "tok1", ""⟩ "fresh1" "fresh2").1
      (by decide),
   (tokens_minted_once ⟨1, 1, none, "a@example.com", "tok1", ""⟩ "fresh1" "fresh2").2.2.2 rfl⟩

/-- C6: every generated token has exactly 16 characters, each drawn from the
36-character lowercase-alphanumeric alphabet; the alphabet has no duplicate
characters, and the index-to-character map is injective, so a uniform index
from the secure source yields a uniform character. -/
theorem generate_token_spec (pick : Fin 16 → Fin 36) :
    (generate_token pick).length = 16 ∧
    (∀ c ∈ (generate_token pick).toList, c ∈ token_alphabet) ∧
    token_alphabet.length = 36 ∧
    token_alphabet.Nodup ∧
    Function.Injective token_char := by
  refine ⟨?_, ?_, by decide, by decide, by decide⟩
  · simp [generate_token, String.length]
  · intro c hc
    simp only [generate_token, String.toList, List.mem_map] at hc
    obtain ⟨i, _, rfl⟩ := hc
    unfold token_char
    exact List.get_mem _ _ _

/-- Witness for C6 at the constant-zero index stream. -/
theorem generate_token_spec_witness :
    (generate_token fun _ => (0 : Fin 36)).length = 16 ∧
    (∀ c ∈ (generate_token fun _ => (0 : Fin 36)).toList, c ∈ token_alphabet) :=
  ⟨(generate_token_spec fun _ => (0 : Fin 36)).1,
   (generate_token_spec fun _ => (0 : Fin 36)).2.1⟩

/-- C10: a reviewer may have both identity fields set — validation passes —
and then `get_email_address` returns the bare email field; the linked user's
email is consulted only when the email field is blank; `get_name` prefers
the user's display name whenever a user account is set. -/
theorem identity_preference (udn : User → String) (r : Reviewer) (u : User) :
    (r.user = some u → r.email ≠ "" →
      r.clean = Except.ok () ∧ r.get_email_address = some r.email) ∧
    (r.user = some u → r.email = "" → r.get_email_address = some u.email) ∧
    (r.user = some u → r.get_name udn = udn u) ∧
    (r.user = none → r.get_name udn = r.email) := by
  refine ⟨fun hu he => ⟨?_, ?_⟩, fun hu he => ?_, fun hu => ?_, fun hu => ?_⟩
  · simp [Reviewer.clean, hu]
  · simp [Reviewer.get_email_address, he]
  · simp [Reviewer.get_email_address, hu, he]
  · simp [Reviewer.get_name, hu]
  · simp [Reviewer.get_name, hu]

/-- Witness for C10 at a reviewer carrying both a user account and an email. -/
theorem identity_preference_witness :
    Reviewer.clean ⟨7, 1, some ⟨3, "u@example.com"⟩, "r@example.com", "", ""⟩
        = Except.ok () ∧
    Reviewer.get_email_address ⟨7, 1, some ⟨3, "u@example.com"⟩, "r@example.com", "", ""⟩
        = some "r@example.com" ∧
    Reviewer.get_email_address ⟨7, 1, some ⟨3, "u@example.com"⟩, "", "", ""⟩
        = some "u@example.com" :=
  ⟨((identity_preference User.email ⟨7, 1, some ⟨3, "u@example.com"⟩, "r@example.com", "", ""⟩
      ⟨3, "u@example.com"⟩).1 rfl (by decide)).1,
   ((identity_preference User.email ⟨7, 1, some ⟨3, "u@example.com"⟩, "r@example.com", "", ""⟩
      ⟨3, "u@example.com"⟩).1 rfl (by decide)).2,
   (identity_preference User.email ⟨7, 1, some ⟨3, "u@example.com"⟩, "", "", ""⟩
      ⟨3, "u@example.com"⟩).2.1 rfl rfl⟩

/-- C3: `send_request_emails` emails exactly the reviewer rows of the review
whose user account is not the submitter — reviewers with no user account
(external emails) are included, by Django's Python-style `NULL` handling in
`exclude`. -/
theorem send_request_emails_spec (rev : Review) (allReviewers : List Reviewer)
    (r : Reviewer) :
    r ∈ send_request_emails rev allReviewers ↔
      r ∈ allReviewers ∧ r.review = rev.id ∧
        ¬ ∃ u, r.user = some u ∧ u.id = rev.submitter.id := by
  cases hu : r.user with
  | none =>
    simp [send_request_emails, reviewers_of, List.mem_filter, reviewer_user_is, hu,
      and_assoc]
  | some u =>
    simp only [send_request_emails, reviewers_of, List.mem_filter, reviewer_user_is, hu]
    simp only [Option.any_some, Bool.not_eq_true', beq_eq_false_iff_ne, ne_eq,
      Option.some.injEq, beq_iff_eq]
    constructor
    · rintro ⟨⟨hmem, hrev⟩, hne⟩
      exact ⟨hmem, hrev, fun ⟨v, hv, hid⟩ => hne (hv ▸ hid)⟩
    · rintro ⟨hmem, hrev, hne⟩
      exact ⟨⟨hmem, hrev⟩, fun hid => hne ⟨u, rfl, hid⟩⟩

/-- Witness for C3: an external reviewer (no user account) of the review is
emailed. -/
theorem send_request_emails_spec_witness :
    (⟨2, 1, none, "x@example.com", "", ""⟩ : Reviewer) ∈
      send_request_emails ⟨1, 10, "open", ⟨5, "s@example.com"⟩, 0⟩
        [⟨2, 1, none, "x@example.com", "", ""⟩] :=
  (send_request_emails_spec ⟨1, 10, "open", ⟨5, "s@example.com"⟩, 0⟩
      [⟨2, 1, none, "x@example.com", "", ""⟩] ⟨2, 1, none, "x@example.com", "", ""⟩).2
    ⟨by decide, rfl, by simp⟩

/-- C4: `send_notification_to_submitter` sends exactly one email, to the
submitter's address, iff that address is non-empty; otherwise it sends
nothing and raises nothing (the function is total). -/
theorem send_notification_spec (rev : Review) :
    ((send_notification_to_submitter rev).isSome ↔ rev.submitter.email ≠ "") ∧
    (∀ a, send_notification_to_submitter rev = some a → a = rev.submitter.email) ∧
    (rev.submitter.email = "" → send_notification_to_submitter rev = none) := by
  by_cases h : rev.submitter.email = "" <;>
    simp [send_notification_to_submitter, h]

/-- Witness for C4: a submitter without an address gets no email. -/
theorem send_notification_spec_witness :
    send_notification_to_submitter ⟨1, 10, "open", ⟨5, ""⟩, 0⟩ = none ∧
    send_notification_to_submitter ⟨1, 10, "open", ⟨5, "s@example.com"⟩, 0⟩
      = some "s@example.com" :=
  ⟨(send_notification_spec ⟨1, 10, "open", ⟨5, ""⟩, 0⟩).2.2 rfl, rfl⟩

/-- C9: `get_responses` returns exactly the responses whose reviewer belongs
to the review, as a permutation of that filter, sorted ascending on creation
timestamp. -/
theorem get_responses_spec (rev : Review) (allReviewers : List Reviewer)
    (allResponses : List Response) :
    (∀ p, p ∈ get_responses rev allReviewers allResponses ↔
      p ∈ allResponses ∧ ∃ w ∈ allReviewers, w.id = p.reviewer ∧ w.review = rev.id) ∧
    List.Sorted created_le (get_responses rev allReviewers allResponses) ∧
    List.Perm (get_responses rev allReviewers allResponses)
      (allResponses.filter fun p =>
        allReviewers.any fun w => w.id == p.reviewer && w.review == rev.id) := by
  refine ⟨fun p => ?_, ?_, ?_⟩
  · simp [get_responses, List.mem_insertionSort, List.mem_filter, List.any_eq_true]
  · exact List.sorted_insertionSort created_le _
  · exact List.perm_insertionSort created_le _

/-- Witness for C9: a response of the review's only reviewer is returned. -/
theorem get_responses_spec_witness :
    (⟨1, 2, "approve", "ok", 5⟩ : Response) ∈
      get_responses ⟨1, 10, "open", ⟨5, "s@example.com"⟩, 0⟩
        [⟨2, 1, none, "x@example.com", "", ""⟩] [⟨1, 2, "approve", "ok", 5⟩] :=
  ((get_responses_spec ⟨1, 10, "open", ⟨5, "s@example.com"⟩, 0⟩
      [⟨2, 1, none, "x@example.com", "", ""⟩] [⟨1, 2, "approve", "ok", 5⟩]).1
    ⟨1, 2, "approve", "ok", 5⟩).2
    ⟨by decide, ⟨2, 1, none, "x@example.com", "", ""⟩, by decide, rfl, rfl⟩

/-- Helper: membership in `get_pages_with_reviews_for_user` unfolds to
editability, being reviewed, and carrying the grouped maximum. -/
theorem mem_pages_annotated (object_id : Nat → Nat) (editable_pages : List Nat)
    (reviews : List Review) (pk t : Nat) :
    (pk, t) ∈ get_pages_with_reviews_for_user object_id editable_pages reviews ↔
      pk ∈ editable_pages ∧ pk ∈ reviewed_page_ids object_id reviews ∧
        latest_reviews_map object_id reviews pk = some t := by
  simp only [get_pages_with_reviews_for_user, List.mem_insertionSort, List.mem_filterMap,
    List.mem_filter, Option.map_eq_some', Prod.mk.injEq, List.contains,
    List.elem_eq_mem, decide_eq_true_eq]
  constructor
  · rintro ⟨a, ⟨ha, hrd⟩, s, hs, rfl, rfl⟩
    exact ⟨ha, hrd, hs⟩
  · rintro ⟨ha, hrd, hs⟩
    exact ⟨pk, ⟨ha, hrd⟩, t, hs, rfl, rfl⟩

/-- C5: the pages returned for a user are exactly the editable pages with at
least one review; each carries the maximum review creation timestamp among
its reviews, and the list is sorted descending on that timestamp. -/
theorem get_pages_with_reviews_spec (object_id : Nat → Nat)
    (editable_pages : List Nat) (reviews : List Review) :
    (∀ pk t, (pk, t) ∈ get_pages_with_reviews_for_user object_id editable_pages reviews →
      pk ∈ editable_pages ∧
      (∃ rv ∈ reviews, review_page object_id rv = pk ∧ rv.created_at = t) ∧
      (∀ rv ∈ reviews, review_page object_id rv = pk → rv.created_at ≤ t)) ∧
    (∀ pk, pk ∈ editable_pages → (∃ rv ∈ reviews, review_page object_id rv = pk) →
      ∃ t, (pk, t) ∈ get_pages_with_reviews_for_user object_id editable_pages reviews) ∧
    List.Sorted latest_desc (get_pages_with_reviews_for_user object_id editable_pages reviews) := by
  refine ⟨fun pk t h => ?_, fun pk hpk hex => ?_, ?_⟩
  · rw [mem_pages_annotated] at h
    obtain ⟨he, -, hmax⟩ := h
    rw [latest_reviews_map, List.max?_eq_some_iff'] at hmax
    obtain ⟨hmem, hub⟩ := hmax
    refine ⟨he, ?_, ?_⟩
    · obtain ⟨rv, hrv, hct⟩ := List.mem_map.1 hmem
      obtain ⟨hrvm, hpg⟩ := List.mem_filter.1 hrv
      exact ⟨rv, hrvm, by simpa using hpg, hct⟩
    · intro rv hrv hpg
      exact hub _ (List.mem_map.2 ⟨rv, List.mem_filter.2 ⟨hrv, by simpa using hpg⟩, rfl⟩)
  · obtain ⟨rv, hrv, hpg⟩ := hex
    have hgrp : rv.created_at ∈
        ((reviews.filter fun v => review_page object_id v == pk).map Review.created_at) :=
      List.mem_map.2 ⟨rv, List.mem_filter.2 ⟨hrv, by simpa using hpg⟩, rfl⟩
    cases hmax : latest_reviews_map object_id reviews pk with
    | none =>
      rw [latest_reviews_map, List.max?_eq_none_iff] at hmax
      rw [hmax] at hgrp
      cases hgrp
    | some t =>
      refine ⟨t, (mem_pages_annotated object_id editable_pages reviews pk t).2
        ⟨hpk, ?_, hmax⟩⟩
      exact List.mem_dedup.2 (List.mem_map.2 ⟨rv, hrv, hpg⟩)
  · exact List.sorted_insertionSort latest_desc _

/-- Witness for C5: one editable page with one review is returned with that
review's timestamp. -/
theorem get_pages_with_reviews_spec_witness :
    ∃ t, (10, t) ∈ get_pages_with_reviews_for_user id [10]
      [⟨1, 10, "open", ⟨5, "s@example.com"⟩, 7⟩] :=
  (get_pages_with_reviews_spec id [10] [⟨1, 10, "open", ⟨5, "s@example.com"⟩, 7⟩]).2.1
    10 (by decide) ⟨⟨1, 10, "open", ⟨5, "s@example.com"⟩, 7⟩, by decide, rfl⟩

/-- C7: the annotation serialization is an object with exactly the keys
`id`, `annotator_schema_version`, `created`, `updated`, `text`, `quote`,
`user`, `ranges`; the schema version is the fixed string `v1.0`, the
timestamps are the ISO renderings, the user sub-object holds the reviewer's
id and name, and each range sub-object has exactly the keys `start`,
`startOffset`, `end`, `endOffset`. -/
theorem as_json_data_shape (udn : User → String) (a : Annotation) :
    ( Annotation.as_json_data udn a).keys =
      ["id", "annotator_schema_version", "created", "updated", "text", "quote",
        "user", "ranges"] ∧
    ( Annotation.as_json_data udn a).lookup "annotator_schema_version"
      = some (Json.str "v1.0") ∧
    ( Annotation.as_json_data udn a).lookup "created"
      = some (Json.str a.created_at.isoformat) ∧
    ( Annotation.as_json_data udn a).lookup "updated"
      = some (Json.str a.updated_at.isoformat) ∧
    ( Annotation.as_json_data udn a).lookup "user"
      = some (Json.obj [("id", Json.num a.reviewer.id),
          ("name", Json.str (a.reviewer.get_name udn))]) ∧
    ( Annotation.as_json_data udn a).lookup "ranges"
      = some (Json.arr (a.ranges.map AnnotationRange.as_json_data)) ∧
    (∀ rng : AnnotationRange, rng.as_json_data.keys
      = ["start", "startOffset", "end", "endOffset"]) := by
  refine ⟨rfl, rfl, rfl, rfl, rfl, rfl, fun rng => rfl⟩

/-- C8: no operation in `models.py` moves a review's status backwards: a
stored review row is never modified by any operation, and a freshly created
row always has status `'open'`. -/
theorem status_one_directional (w : World) (op : Op) (i : Nat) :
    (∀ r, w.reviews i = some r → (step w op).reviews i = some r) ∧
    (∀ r', w.reviews i = none → (step w op).reviews i = some r' →
      r'.status = "open") := by
  cases op with
  | create_review j pr sub now =>
    by_cases hj : (w.reviews j).isNone
    · by_cases hij : i = j
      · subst hij
        constructor
        · intro r hr
          rw [hr] at hj
          cases hj
        · intro r' _ hr'
          simp only [step, hj, if_pos, if_true, beq_self_eq_true,
            Option.some.injEq] at hr'
          rw [← hr']
      · constructor
        · intro r hr
          simpa [step, hj, hij] using hr
        · intro r' hnone hr'
          simp [step, hj, hij, hnone] at hr'
    · constructor
      · intro r hr
        simpa [step, hj] using hr
      · intro r' hnone hr'
        simp [step, hj, hnone] at hr'
  | save_reviewer j t1 t2 =>
    constructor
    · intro r hr
      simpa [step] using hr
    · intro r' hnone hr'
      simp [step, hnone] at hr'

/-- Witness for C8: creating review pk 1 in the empty world stores status
`'open'`, and an existing row survives a reviewer save unchanged. -/
theorem status_one_directional_witness :
    ( Review.mk 1 10 "open" ⟨5, "s@example.com"⟩ 0).status = "open" :=
  (status_one_directional ⟨fun _ => none, fun _ => none⟩
      (Op.create_review 1 10 ⟨5, "s@example.com"⟩ 0) 1).2
    (Review.mk 1 10 "open" ⟨5, "s@example.com"⟩ 0) rfl rfl

end WagtailReview
